import Mathlib

/-!
Verification of the zylisp/repl REPL protocol engine (Go) against its
natural-language specification, via a shallow embedding in Lean 4.

The embedding translates the Go source:
  * `protocol.Message` and the JSON codec (protocol/message.go, json_codec.go)
  * the operation handler (operations package)
  * the universal client and `detectTransport` (repl.go)
  * the server factory `NewServer` (repl.go)
  * the in-process transport's request/response queues (transport/inprocess)

Go `interface{}` values carried in messages are modelled as JSON values
(`JValue`); the Go `nil` interface is `JValue.null`. Go slices and maps are
modelled as Lean lists (a `nil` slice/map and an empty one are conflated,
which is the distinction-free view the codec and handler take). Go numbers
are modelled as rationals. Side effects are made explicit: the evaluator and
the filesystem are function parameters, channels are FIFO lists, and the
network dial is a function parameter.
-/

/-- A JSON-representable value: the model of Go `interface{}` data carried in
protocol messages. `null` doubles as the Go `nil` interface. Objects are
association lists (Go `map[string]interface{}`). -/
inductive JValue where
  | null : JValue
  | bool (b : Bool) : JValue
  | num (q : Rat) : JValue
  | str (s : String) : JValue
  | arr (xs : List JValue) : JValue
  | obj (kvs : List (String × JValue)) : JValue

mutual

/-- Boolean equality on JSON values (decidable equality is derived from it
below; the automatic derivation does not handle the nested lists). -/
def JValue.beq : JValue → JValue → Bool
  | .null, .null => true
  | .bool a, .bool b => a == b
  | .num a, .num b => a == b
  | .str a, .str b => a == b
  | .arr xs, .arr ys => JValue.beqList xs ys
  | .obj xs, .obj ys => JValue.beqPairs xs ys
  | _, _ => false

/-- Boolean equality on lists of JSON values. -/
def JValue.beqList : List JValue → List JValue → Bool
  | [], [] => true
  | x :: xs, y :: ys => JValue.beq x y && JValue.beqList xs ys
  | _, _ => false

/-- Boolean equality on key/value pair lists. -/
def JValue.beqPairs : List (String × JValue) → List (String × JValue) → Bool
  | [], [] => true
  | (k, v) :: xs, (l, w) :: ys => k == l && (JValue.beq v w && JValue.beqPairs xs ys)
  | _, _ => false

end

mutual

theorem JValue.eq_of_beq : ∀ {a b : JValue}, JValue.beq a b = true → a = b
  | .null, .null, _ => rfl
  | .bool _, .bool _, h => by
      simpa [JValue.beq] using h
  | .num _, .num _, h => by
      simpa [JValue.beq] using h
  | .str _, .str _, h => by
      simpa [JValue.beq] using h
  | .arr xs, .arr ys, h => by
      have := @JValue.eq_of_beqList xs ys (by simpa [JValue.beq] using h)
      simp [this]
  | .obj xs, .obj ys, h => by
      have := @JValue.eq_of_beqPairs xs ys (by simpa [JValue.beq] using h)
      simp [this]

theorem JValue.eq_of_beqList : ∀ {xs ys : List JValue},
    JValue.beqList xs ys = true → xs = ys
  | [], [], _ => rfl
  | x :: xs, y :: ys, h => by
      have hb : JValue.beq x y = true ∧ JValue.beqList xs ys = true := by
        simpa [JValue.beqList, Bool.and_eq_true] using h
      have h1 := JValue.eq_of_beq hb.1
      have h2 := JValue.eq_of_beqList hb.2
      simp [h1, h2]

theorem JValue.eq_of_beqPairs : ∀ {xs ys : List (String × JValue)},
    JValue.beqPairs xs ys = true → xs = ys
  | [], [], _ => rfl
  | (k, v) :: xs, (l, w) :: ys, h => by
      have hb : (k == l) = true ∧ JValue.beq v w = true ∧ JValue.beqPairs xs ys = true := by
        simpa [JValue.beqPairs, Bool.and_eq_true] using h
      have h1 : k = l := by simpa using hb.1
      have h2 := JValue.eq_of_beq hb.2.1
      have h3 := JValue.eq_of_beqPairs hb.2.2
      simp [h1, h2, h3]

end

mutual

theorem JValue.beq_refl : ∀ a : JValue, JValue.beq a a = true
  | .null => rfl
  | .bool _ => by simp [JValue.beq]
  | .num _ => by simp [JValue.beq]
  | .str _ => by simp [JValue.beq]
  | .arr xs => by simpa [JValue.beq] using JValue.beqList_refl xs
  | .obj xs => by simpa [JValue.beq] using JValue.beqPairs_refl xs

theorem JValue.beqList_refl : ∀ xs : List JValue, JValue.beqList xs xs = true
  | [] => rfl
  | x :: xs => by
      simp [JValue.beqList, JValue.beq_refl x, JValue.beqList_refl xs]

theorem JValue.beqPairs_refl : ∀ xs : List (String × JValue), JValue.beqPairs xs xs = true
  | [] => rfl
  | (_, v) :: xs => by
      simp [JValue.beqPairs, JValue.beq_refl v, JValue.beqPairs_refl xs]

end

instance : DecidableEq JValue := fun a b =>
  if h : JValue.beq a b = true then .isTrue (JValue.eq_of_beq h)
  else .isFalse (fun he => h (he ▸ JValue.beq_refl a))

/-- Model of Go struct `protocol.Message`. Field defaults are the Go zero
values. `value` is the Go `interface{}` field (`JValue.null` = nil);
`data` is the Go `map[string]interface{}` field (`[]` = nil). -/
structure Message where
  op : String := ""
  id : String := ""
  session : String := ""
  code : String := ""
  status : List String := []
  value : JValue := .null
  output : String := ""
  protocolError : String := ""
  data : List (String × JValue) := []
deriving DecidableEq

/-- Model of Go `operations.EvaluatorFunc`:
`func(code string) (result interface{}, output string, err error)`.
The error is `none` when the Go error is nil, `some msg` otherwise. -/
def EvaluatorFunc : Type := String → JValue × String × Option String

/-- Model of `os.ReadFile`: a filesystem passed explicitly. `.ok contents`
models a successful read, `.error msg` a read error with message `msg`. -/
def FileSystem : Type := String → Except String String

/-- Model of Go `fmt.Sprintf` `%q` applied to one character: quote-relevant
escapes of a double-quoted Go string literal. (Non-printable characters
beyond the common escapes are passed through; no claim exercises them.) -/
def goQuoteChar (c : Char) : String :=
  if c = '"' then "\\\""
  else if c = '\\' then "\\\\"
  else if c = '\n' then "\\n"
  else if c = '\t' then "\\t"
  else if c = '\r' then "\\r"
  else String.singleton c

/-- Model of Go `fmt.Sprintf` with verb `%q` on a string: the string wrapped
in double quotes with characters escaped. -/
def goQuote (s : String) : String :=
  "\"" ++ String.join (s.toList.map goQuoteChar) ++ "\""

/-- Go `req.Data[key].(string)` guarded by the comma-ok form: the value under
`key`, provided it exists and is a string. -/
def dataLookupString (data : List (String × JValue)) (key : String) : Option String :=
  match data.lookup key with
  | some (.str s) => some s
  | _ => none

namespace Handler

/-- Embedding of `Handler.handleEval` (operations package): requires
non-empty `code`, calls the evaluator, and shapes the response. -/
def handleEval (evaluator : EvaluatorFunc) (req resp : Message) : Message :=
  if req.code = "" then
    { resp with
        status := ["error"]
        protocolError := "eval operation requires 'code' field" }
  else
    match evaluator req.code with
    | (_, _, some err) =>
        { resp with
            status := ["error"]
            protocolError := "evaluator error: " ++ err }
    | (result, output, none) =>
        { resp with
            value := result
            output := output
            status := ["done"] }

/-- Embedding of `Handler.handleLoadFile`: file path from `data.file` or
`data.file-path`, read via the filesystem, then evaluate like `eval`. -/
def handleLoadFile (evaluator : EvaluatorFunc) (fs : FileSystem)
    (req resp : Message) : Message :=
  let filePath :=
    match dataLookupString req.data "file" with
    | some fp => fp
    | none =>
      match dataLookupString req.data "file-path" with
      | some fp => fp
      | none => ""
  if filePath = "" then
    { resp with
        status := ["error"]
        protocolError := "load-file operation requires 'file' or 'file-path' in data field" }
  else
    match fs filePath with
    | .error err =>
        { resp with
            status := ["error"]
            protocolError := "failed to read file: " ++ err }
    | .ok code =>
      match evaluator code with
      | (_, _, some err) =>
          { resp with
              status := ["error"]
              protocolError := "evaluator error: " ++ err }
      | (result, output, none) =>
          { resp with
              value := result
              output := output
              status := ["done"] }

/-- Embedding of `Handler.handleDescribe`: the static capability record. -/
def handleDescribe (resp : Message) : Message :=
  { resp with
      status := ["done"]
      data := [
        ("versions", .obj [("zylisp", .str "0.1.0"), ("protocol", .str "0.1.0")]),
        ("ops", .arr [.str "eval", .str "load-file", .str "describe", .str "interrupt"]),
        ("transports", .arr [.str "in-process", .str "unix", .str "tcp"])] }

/-- Embedding of `Handler.handleInterrupt`: a stub error response. -/
def handleInterrupt (resp : Message) : Message :=
  { resp with
      status := ["error"]
      protocolError := "interrupt operation not yet fully implemented" }

/-- The ops of the Go `case "complete", "info", ...` arm of `Handler.Handle`:
known but unimplemented operations. -/
def unimplementedOps : List String :=
  ["complete", "info", "eldoc", "lookup", "stdin", "ls-sessions", "clone", "close"]

/-- Embedding of `Handler.Handle`: builds the base response carrying the
request's ID and dispatches on `req.op` (the Go `switch`). -/
def Handle (evaluator : EvaluatorFunc) (fs : FileSystem) (req : Message) : Message :=
  let resp : Message := { id := req.id }
  if req.op = "eval" then handleEval evaluator req resp
  else if req.op = "load-file" then handleLoadFile evaluator fs req resp
  else if req.op = "describe" then handleDescribe resp
  else if req.op = "interrupt" then handleInterrupt resp
  else if req.op ∈ unimplementedOps then
    { resp with
        status := ["error"]
        protocolError := "operation " ++ goQuote req.op ++ " not yet implemented" }
  else
    { resp with
        status := ["error"]
        protocolError := "unknown operation: " ++ goQuote req.op }

end Handler

/-- The mock evaluator of the repository's transport tests (inprocess and tcp
test files), used here to instantiate witnesses. -/
def mockEvaluator : EvaluatorFunc := fun code =>
  if code = "(+ 1 2)" then (.num 3, "", none)
  else if code = "(println \"hello\")" then (.null, "hello\n", none)
  else if code = "(error \"test error\")" then
    (.obj [("error", .str "test error"), ("type", .str "user-error")], "", none)
  else if code = "(catastrophic)" then (.null, "", some "catastrophic failure")
  else (.str code, "", none)

/-- A filesystem on which every read fails, for witnesses that never touch
`load-file`. -/
def emptyFs : FileSystem := fun path =>
  .error ("open " ++ path ++ ": no such file or directory")

/-- A filesystem holding the single file `/tmp/test.zl` whose contents are
the mock evaluator's error-as-data program, for the load-file witness. -/
def oneFileFs : FileSystem := fun path =>
  if path = "/tmp/test.zl" then .ok "(error \"test error\")"
  else .error ("open " ++ path ++ ": no such file or directory")

/-! ## The textual (JSON) codec

`JSONCodec.Encode` is Go `json.Encoder.Encode` on a `*Message`; the byte
layer (one compact record plus a newline) is Go's framing, modelled here at
the JSON-object level: encoding produces the keyed record that `json.Marshal`
would serialize, decoding consumes such a record as `json.Unmarshal` would.
Struct fields are emitted in declaration order; `omitempty` fields are
dropped at their zero value; Go map keys are sorted by `json.Marshal`. -/

/-- Insertion into a key-sorted pair list (Go `json.Marshal` emits map keys
in sorted order). -/
def insertByKey (p : String × JValue) : List (String × JValue) → List (String × JValue)
  | [] => [p]
  | q :: qs => if q.1 < p.1 then q :: insertByKey p qs else p :: q :: qs

/-- Sort a pair list by key, modelling Go's sorted map-key marshalling. -/
def sortByKey (l : List (String × JValue)) : List (String × JValue) :=
  l.foldr insertByKey []

mutual

/-- The JSON value as `json.Marshal` renders it: nested Go maps have their
keys emitted in sorted order. -/
def canonJson : JValue → JValue
  | .null => .null
  | .bool b => .bool b
  | .num q => .num q
  | .str s => .str s
  | .arr xs => .arr (canonJsonList xs)
  | .obj kvs => .obj (sortByKey (canonJsonPairs kvs))

/-- Canonicalize every element of a JSON array. -/
def canonJsonList : List JValue → List JValue
  | [] => []
  | x :: xs => canonJson x :: canonJsonList xs

/-- Canonicalize every value of a JSON object. -/
def canonJsonPairs : List (String × JValue) → List (String × JValue)
  | [] => []
  | (k, v) :: xs => (k, canonJson v) :: canonJsonPairs xs

end

/-- Embedding of `json.Marshal` applied to `protocol.Message`: the encoded
record as a keyed sequence in struct-field order. `op` and `id` carry no
`omitempty` tag and are always emitted; every other field is omitted at its
zero value. -/
def Message.encodeObj (m : Message) : List (String × JValue) :=
  [("op", .str m.op), ("id", .str m.id)]
  ++ (if m.session = "" then [] else [("session", .str m.session)])
  ++ (if m.code = "" then [] else [("code", .str m.code)])
  ++ (if m.status = [] then [] else [("status", .arr (m.status.map .str))])
  ++ (if m.value = .null then [] else [("value", canonJson m.value)])
  ++ (if m.output = "" then [] else [("output", .str m.output)])
  ++ (if m.protocolError = "" then [] else [("protocol_error", .str m.protocolError)])
  ++ (if m.data = [] then [] else [("data", .obj (sortByKey (canonJsonPairs m.data)))])

/-- Unmarshal one string-typed struct field: a missing key or a JSON `null`
leaves the Go zero value; any other non-string value is a type error. -/
def decodeStringField (o : List (String × JValue)) (key : String) : Except String String :=
  match o.lookup key with
  | none => .ok ""
  | some .null => .ok ""
  | some (.str s) => .ok s
  | some _ => .error ("cannot unmarshal into field " ++ key)

/-- Unmarshal one element of the `status` array: it must be a string. -/
def decodeStatusElem : JValue → Except String String
  | .str s => .ok s
  | _ => .error "cannot unmarshal status element"

/-- Unmarshal a JSON array into `[]string` elementwise. -/
def decodeStatusList : List JValue → Except String (List String)
  | [] => .ok []
  | x :: xs =>
    match decodeStatusElem x with
    | .error e => .error e
    | .ok s =>
      match decodeStatusList xs with
      | .error e => .error e
      | .ok rest => .ok (s :: rest)

/-- Unmarshal the `status` field (`[]string`): an array whose elements must
all be strings; missing or `null` leaves the nil slice. -/
def decodeStatusField (o : List (String × JValue)) : Except String (List String) :=
  match o.lookup "status" with
  | none => .ok []
  | some .null => .ok []
  | some (.arr xs) => decodeStatusList xs
  | some _ => .error "cannot unmarshal into field status"

/-- Unmarshal the `value` field (`interface{}`): any JSON value; missing
leaves the nil interface. -/
def decodeValueField (o : List (String × JValue)) : JValue :=
  match o.lookup "value" with
  | none => .null
  | some v => v

/-- Unmarshal the `data` field (`map[string]interface{}`): an object;
missing or `null` leaves the nil map. -/
def decodeDataField (o : List (String × JValue)) :
    Except String (List (String × JValue)) :=
  match o.lookup "data" with
  | none => .ok []
  | some .null => .ok []
  | some (.obj kvs) => .ok kvs
  | some _ => .error "cannot unmarshal into field data"

/-- Embedding of `json.Unmarshal` into a fresh `protocol.Message`: each known
key populates its field (absent optional keys keep the zero value, unknown
keys are ignored), mirroring `JSONCodec.Decode` reading one record. The
first type error aborts the decode, as `json.Decoder.Decode` returns it. -/
def Message.decodeObj (o : List (String × JValue)) : Except String Message :=
  match decodeStringField o "op" with
  | .error e => .error e
  | .ok op =>
  match decodeStringField o "id" with
  | .error e => .error e
  | .ok id =>
  match decodeStringField o "session" with
  | .error e => .error e
  | .ok session =>
  match decodeStringField o "code" with
  | .error e => .error e
  | .ok code =>
  match decodeStatusField o with
  | .error e => .error e
  | .ok status =>
  match decodeStringField o "output" with
  | .error e => .error e
  | .ok output =>
  match decodeStringField o "protocol_error" with
  | .error e => .error e
  | .ok protocolError =>
  match decodeDataField o with
  | .error e => .error e
  | .ok data =>
    .ok { op := op, id := id, session := session, code := code,
          status := status, value := decodeValueField o, output := output,
          protocolError := protocolError, data := data }

/-! ## Universal client and transport detection (repl.go) -/

/-- Embedding of `detectTransport` (repl.go): transport tag and codec name
from an address string. String indexing in Go is by byte; addresses here are
ASCII so `String.take`/`String.length` coincide with the Go byte slicing. -/
def detectTransport (addr : String) : String × String :=
  if 7 ≤ addr.length ∧ addr.take 7 = "unix://" then ("unix", "json")
  else if 6 ≤ addr.length ∧ addr.take 6 = "tcp://" then ("tcp", "json")
  else if addr = "" ∨ addr = "in-process" then ("in-process", "")
  else if 0 < addr.length ∧ (addr.front = '/' ∨ addr.front = '.') then ("unix", "json")
  else ("tcp", "json")

/-- The dynamic type of the client stored in `UniversalClient.impl`
(`interface{}` in Go): a `*unix.Client` or a `*tcp.Client`. -/
inductive TransportClient where
  | unixClient : TransportClient
  | tcpClient : TransportClient
deriving DecidableEq

/-- Model of the Go struct `UniversalClient`: the chosen transport tag and
the transport-specific client (`none` is the nil interface). -/
structure UniversalClient where
  transport : String := ""
  impl : Option TransportClient := none
deriving DecidableEq

/-- A network dial attempt, passed explicitly: given the transport tag and
the address handed to the underlying client's `Connect`, returns `none` on
success or `some msg` when the dial fails with that error. -/
def DialFun : Type := String → String → Option String

/-- The observable outcome of `UniversalClient.Connect`: the updated client,
the returned error, and the address actually handed to the underlying
transport client's `Connect` (when one was invoked). -/
structure ConnectOutcome where
  client : UniversalClient
  err : Option String := none
  dialedAddr : Option String := none
deriving DecidableEq

/-- Embedding of `UniversalClient.Connect` (repl.go): detect the transport,
record the tag on the client, then dial. The `tcp` arm strips a leading
`tcp://` before dialing; the `unix` arm passes `addr` through unchanged. -/
def UniversalClient.Connect (c : UniversalClient) (dial : DialFun)
    (addr : String) : ConnectOutcome :=
  let transport := (detectTransport addr).1
  let c := { c with transport := transport }
  if transport = "in-process" then
    { client := c, err := some "in-process transport not supported via universal client" }
  else if transport = "unix" then
    match dial "unix" addr with
    | some e => { client := c, err := some e, dialedAddr := some addr }
    | none =>
        { client := { c with impl := some .unixClient }, dialedAddr := some addr }
  else if transport = "tcp" then
    let addr := if 6 < addr.length ∧ addr.take 6 = "tcp://" then addr.drop 6 else addr
    match dial "tcp" addr with
    | some e => { client := c, err := some e, dialedAddr := some addr }
    | none =>
        { client := { c with impl := some .tcpClient }, dialedAddr := some addr }
  else
    { client := c, err := some ("unknown transport: " ++ transport) }

/-- Model of Go `repl.Result` (also `tcp.Result` / `inprocess.Result`, which
have the identical field set). -/
structure Result where
  id : String := ""
  value : JValue := .null
  output : String := ""
  status : List String := []
deriving DecidableEq

/-- Embedding of `messageToResult` (transport client files). -/
def messageToResult (msg : Message) : Result :=
  { id := msg.id, value := msg.value, output := msg.output, status := msg.status }

/-- Outcome of `UniversalClient.Eval`: a result, a returned Go error, or a
runtime panic from the `c.impl.(*unix.Client)` / `c.impl.(*tcp.Client)` type
assertion (which panics when `impl` is nil or of the other type). -/
inductive EvalOutcome where
  | ok (r : Result) : EvalOutcome
  | err (msg : String) : EvalOutcome
  | typeAssertionFailure : EvalOutcome
deriving DecidableEq

/-- Embedding of `UniversalClient.Eval` (repl.go): dispatch on the recorded
transport tag, type-assert the stored client, and delegate. `inner` stands
for the underlying transport client's `Eval` return. -/
def UniversalClient.Eval (c : UniversalClient)
    (inner : Except String Result) : EvalOutcome :=
  if c.transport = "unix" then
    match c.impl with
    | some .unixClient =>
        match inner with
        | .error e => .err e
        | .ok r => .ok { id := r.id, value := r.value, output := r.output, status := r.status }
    | _ => .typeAssertionFailure
  else if c.transport = "tcp" then
    match c.impl with
    | some .tcpClient =>
        match inner with
        | .error e => .err e
        | .ok r => .ok { id := r.id, value := r.value, output := r.output, status := r.status }
    | _ => .typeAssertionFailure
  else
    .err "not connected"

/-! ## Server factory (repl.go) -/

/-- Model of Go `repl.ServerConfig`. The evaluator is `none` when the Go
field is a nil function value. -/
structure ServerConfig where
  transport : String := ""
  addr : String := ""
  codec : String := ""
  evaluator : Option EvaluatorFunc := none

/-- The server value a successful `NewServer` returns, tagged by transport
and carrying the constructor arguments it was built from. -/
inductive ServerImpl where
  | inprocess (evaluator : Option EvaluatorFunc) : ServerImpl
  | unix (addr codec : String) (evaluator : Option EvaluatorFunc) : ServerImpl
  | tcp (addr codec : String) (evaluator : Option EvaluatorFunc) : ServerImpl

/-- Embedding of `repl.NewServer`: default the codec to `json`, then switch
on the transport tag. -/
def NewServer (config : ServerConfig) : Except String ServerImpl :=
  let codec := if config.codec = "" then "json" else config.codec
  if config.transport = "in-process" ∨ config.transport = "" then
    .ok (.inprocess config.evaluator)
  else if config.transport = "unix" then
    if config.addr = "" then .error "unix transport requires Addr"
    else .ok (.unix config.addr codec config.evaluator)
  else if config.transport = "tcp" then
    if config.addr = "" then .error "tcp transport requires Addr"
    else .ok (.tcp config.addr codec config.evaluator)
  else
    .error ("unknown transport: " ++ config.transport)

/-- Whether an `Except` is a success, for stating construction outcomes. -/
def exceptIsOk {ε α : Type _} : Except ε α → Bool
  | .ok _ => true
  | .error _ => false

/-! ## In-process transport (transport/inprocess)

The transport's channels are modelled as FIFO lists: the server's bounded
request channel and the single registered client's bounded response channel
(both well under capacity in every scenario considered, so boundedness never
bites). The single processing goroutine drains requests in order. -/

/-- One registered in-process client and the server queues it interacts
with: the server's request queue, this client's response queue, and the
client's per-client `msgID` counter. -/
structure InprocState where
  requests : List Message := []
  clientResponses : List Message := []
  msgID : Nat := 0
deriving DecidableEq

/-- The request message `inprocess.Client.Eval` constructs: op `eval`, the
freshly incremented counter rendered in decimal, the client id in `session`,
and the code. -/
def inprocessEvalRequest (clientID : String) (msgID : Nat) (code : String) : Message :=
  { op := "eval", id := toString msgID, session := clientID, code := code }

/-- The send half of `inprocess.Client.Eval`: increment `msgID`, build the
request, and `sendRequest` it onto the server's request channel. -/
def inprocessSendEval (clientID : String) (code : String) (s : InprocState) : InprocState :=
  let msgID := s.msgID + 1
  { s with
      msgID := msgID
      requests := s.requests ++ [inprocessEvalRequest clientID msgID code] }

/-- One iteration of `Server.processRequests` for the next queued request:
drop it silently when `session` is empty, otherwise handle it and deliver
the response to the registered client's channel when the session names that
client (an unregistered session's response is discarded). -/
def inprocessProcessOne (evaluator : EvaluatorFunc) (fs : FileSystem)
    (registeredClientID : String) (s : InprocState) : InprocState :=
  match s.requests with
  | [] => s
  | req :: rest =>
    if req.session = "" then { s with requests := rest }
    else
      let resp := Handler.Handle evaluator fs req
      if req.session = registeredClientID then
        { s with requests := rest, clientResponses := s.clientResponses ++ [resp] }
      else
        { s with requests := rest }

/-- The receive half of `inprocess.Client.Eval`: take the next buffered
response off the client's channel (FIFO) and convert it with
`messageToResult`; `none` when no response is buffered yet. A
context-cancelled `Eval` simply never runs this half, leaving its response
buffered. -/
def inprocessRecv (s : InprocState) : Option (Result × InprocState) :=
  match s.clientResponses with
  | [] => none
  | resp :: rest => some (messageToResult resp, { s with clientResponses := rest })

/-! ## Theorems: the operation handler -/

/-- Every branch of `Handle` builds on the base response carrying the
request's ID and never overwrites it. -/
theorem Handler.handle_id (evaluator : EvaluatorFunc) (fs : FileSystem)
    (req : Message) : (Handler.Handle evaluator fs req).id = req.id := by
  simp only [Handler.Handle, Handler.handleEval, Handler.handleLoadFile,
    Handler.handleDescribe, Handler.handleInterrupt]
  split_ifs <;> (try split) <;> (try split) <;> simp

/-- C2: for every request message, regardless of its op (implemented,
unimplemented, or unknown), the response returned by `Handler.Handle`
carries the same id as the request. -/
theorem handle_echoes_request_id (evaluator : EvaluatorFunc) (fs : FileSystem)
    (req : Message) : (Handler.Handle evaluator fs req).id = req.id :=
  Handler.handle_id evaluator fs req

/-- C1: for an `eval` request: with non-empty code and a non-fatal evaluator
return the response is exactly id, value, output and status `[done]` (no
protocol error); a fatal evaluator return yields status `[error]` with
protocol error `evaluator error: ...`; empty code yields status `[error]`
with protocol error `eval operation requires 'code' field`. -/
theorem eval_op_response_correct (evaluator : EvaluatorFunc) (fs : FileSystem)
    (req : Message) (hop : req.op = "eval") :
    (∀ v out, req.code ≠ "" → evaluator req.code = (v, out, none) →
        Handler.Handle evaluator fs req =
          { id := req.id, value := v, output := out, status := ["done"] })
    ∧ (∀ v out e, req.code ≠ "" → evaluator req.code = (v, out, some e) →
        Handler.Handle evaluator fs req =
          { id := req.id, status := ["error"],
            protocolError := "evaluator error: " ++ e })
    ∧ (req.code = "" →
        Handler.Handle evaluator fs req =
          { id := req.id, status := ["error"],
            protocolError := "eval operation requires 'code' field" }) := by
  refine ⟨fun v out hc he => ?_, fun v out e hc he => ?_, fun hc => ?_⟩
  · simp [Handler.Handle, hop, Handler.handleEval, hc, he]
  · simp [Handler.Handle, hop, Handler.handleEval, hc, he]
  · simp [Handler.Handle, hop, Handler.handleEval, hc]

/-- Witness for C1: the three branches at concrete inputs, using the
repository's mock evaluator. -/
theorem eval_op_response_correct_witness :
    (Handler.Handle mockEvaluator emptyFs { op := "eval", id := "1", code := "(+ 1 2)" } =
      { id := "1", value := .num 3, output := "", status := ["done"] })
    ∧ (Handler.Handle mockEvaluator emptyFs { op := "eval", id := "2", code := "(catastrophic)" } =
      { id := "2", status := ["error"],
        protocolError := "evaluator error: catastrophic failure" })
    ∧ (Handler.Handle mockEvaluator emptyFs { op := "eval", id := "3" } =
      { id := "3", status := ["error"],
        protocolError := "eval operation requires 'code' field" }) :=
  ⟨(eval_op_response_correct mockEvaluator emptyFs
      { op := "eval", id := "1", code := "(+ 1 2)" } rfl).1
      (.num 3) "" (by decide) (by decide),
   (eval_op_response_correct mockEvaluator emptyFs
      { op := "eval", id := "2", code := "(catastrophic)" } rfl).2.1
      .null "" "catastrophic failure" (by decide) (by decide),
   (eval_op_response_correct mockEvaluator emptyFs
      { op := "eval", id := "3" } rfl).2.2 rfl⟩

/-- Shared helper: a successful evaluation shapes the whole response. -/
theorem Handler.handle_eval_ok (evaluator : EvaluatorFunc) (fs : FileSystem)
    (req : Message) (v : JValue) (out : String) (hop : req.op = "eval")
    (hc : req.code ≠ "") (he : evaluator req.code = (v, out, none)) :
    Handler.Handle evaluator fs req =
      { id := req.id, value := v, output := out, status := ["done"] } := by
  simp [Handler.Handle, hop, Handler.handleEval, hc, he]

/-- Shared helper: a successful `load-file` read and evaluation shapes the
whole response like `eval` does. -/
theorem Handler.handle_loadFile_ok (evaluator : EvaluatorFunc) (fs : FileSystem)
    (req : Message) (v : JValue) (out : String) (path contents : String)
    (hop : req.op = "load-file")
    (hlook : dataLookupString req.data "file" = some path
      ∨ (dataLookupString req.data "file" = none
        ∧ dataLookupString req.data "file-path" = some path))
    (hpath : path ≠ "") (hfs : fs path = .ok contents)
    (he : evaluator contents = (v, out, none)) :
    Handler.Handle evaluator fs req =
      { id := req.id, value := v, output := out, status := ["done"] } := by
  rcases hlook with hl | ⟨hl1, hl2⟩
  · simp [Handler.Handle, hop, Handler.handleLoadFile, hl, hpath, hfs, he]
  · simp [Handler.Handle, hop, Handler.handleLoadFile, hl1, hl2, hpath, hfs, he]

/-- Shared helper: in every branch of `Handle`, a set protocol error comes
with status exactly `[error]` and zero-valued `value` and `output`. -/
theorem Handler.handle_error_shape (evaluator : EvaluatorFunc) (fs : FileSystem)
    (req : Message) :
    (Handler.Handle evaluator fs req).protocolError = "" ∨
    ((Handler.Handle evaluator fs req).status = ["error"]
      ∧ (Handler.Handle evaluator fs req).value = .null
      ∧ (Handler.Handle evaluator fs req).output = "") := by
  simp only [Handler.Handle, Handler.handleEval, Handler.handleLoadFile,
    Handler.handleDescribe, Handler.handleInterrupt]
  split_ifs <;> (try split) <;> (try split) <;> simp

/-- C3: a set (non-empty) protocol error implies status beginning with
`error` and absent `value`/`output`; and on both paths that invoke the
evaluator — `eval` and `load-file` — a non-fatal evaluator return,
error-as-data included, lands in `value` with status `[done]` and no
protocol error. -/
theorem protocol_error_exclusivity (evaluator : EvaluatorFunc) (fs : FileSystem)
    (req : Message) :
    ((Handler.Handle evaluator fs req).protocolError ≠ "" →
        (Handler.Handle evaluator fs req).status.head? = some "error"
        ∧ (Handler.Handle evaluator fs req).value = .null
        ∧ (Handler.Handle evaluator fs req).output = "")
    ∧ (∀ v out, req.op = "eval" → req.code ≠ "" → evaluator req.code = (v, out, none) →
        (Handler.Handle evaluator fs req).value = v
        ∧ (Handler.Handle evaluator fs req).status = ["done"]
        ∧ (Handler.Handle evaluator fs req).protocolError = "")
    ∧ (∀ v out path contents, req.op = "load-file" →
        (dataLookupString req.data "file" = some path
          ∨ (dataLookupString req.data "file" = none
            ∧ dataLookupString req.data "file-path" = some path)) →
        path ≠ "" → fs path = .ok contents → evaluator contents = (v, out, none) →
        (Handler.Handle evaluator fs req).value = v
        ∧ (Handler.Handle evaluator fs req).status = ["done"]
        ∧ (Handler.Handle evaluator fs req).protocolError = "") := by
  refine ⟨fun hne => ?_, fun v out hop hc he => ?_,
    fun v out path contents hop hlook hpath hfs he => ?_⟩
  · rcases Handler.handle_error_shape evaluator fs req with h | h
    · exact absurd h hne
    · exact ⟨by rw [h.1]; rfl, h.2.1, h.2.2⟩
  · rw [Handler.handle_eval_ok evaluator fs req v out hop hc he]
    exact ⟨rfl, rfl, rfl⟩
  · rw [Handler.handle_loadFile_ok evaluator fs req v out path contents hop hlook hpath hfs he]
    exact ⟨rfl, rfl, rfl⟩

/-- Witness for C3: the protocol-error half at an unknown op, and the
error-as-data half at the mock evaluator's `(error "test error")`, both via
`eval` and via `load-file` of a file with those contents. -/
theorem protocol_error_exclusivity_witness :
    ((Handler.Handle mockEvaluator emptyFs { op := "frobnicate", id := "9" }).status.head?
        = some "error"
      ∧ (Handler.Handle mockEvaluator emptyFs { op := "frobnicate", id := "9" }).value = .null
      ∧ (Handler.Handle mockEvaluator emptyFs { op := "frobnicate", id := "9" }).output = "")
    ∧ ((Handler.Handle mockEvaluator emptyFs
          { op := "eval", id := "8", code := "(error \"test error\")" }).value
        = .obj [("error", .str "test error"), ("type", .str "user-error")]
      ∧ (Handler.Handle mockEvaluator emptyFs
          { op := "eval", id := "8", code := "(error \"test error\")" }).status = ["done"]
      ∧ (Handler.Handle mockEvaluator emptyFs
          { op := "eval", id := "8", code := "(error \"test error\")" }).protocolError = "")
    ∧ ((Handler.Handle mockEvaluator oneFileFs
          { op := "load-file", id := "7", data := [("file", .str "/tmp/test.zl")] }).value
        = .obj [("error", .str "test error"), ("type", .str "user-error")]
      ∧ (Handler.Handle mockEvaluator oneFileFs
          { op := "load-file", id := "7", data := [("file", .str "/tmp/test.zl")] }).status
        = ["done"]
      ∧ (Handler.Handle mockEvaluator oneFileFs
          { op := "load-file", id := "7", data := [("file", .str "/tmp/test.zl")] }).protocolError
        = "") :=
  ⟨(protocol_error_exclusivity mockEvaluator emptyFs { op := "frobnicate", id := "9" }).1
      (by decide),
   (protocol_error_exclusivity mockEvaluator emptyFs
      { op := "eval", id := "8", code := "(error \"test error\")" }).2.1
      (.obj [("error", .str "test error"), ("type", .str "user-error")]) ""
      rfl (by decide) (by decide),
   (protocol_error_exclusivity mockEvaluator oneFileFs
      { op := "load-file", id := "7", data := [("file", .str "/tmp/test.zl")] }).2.2
      (.obj [("error", .str "test error"), ("type", .str "user-error")]) ""
      "/tmp/test.zl" "(error \"test error\")" rfl (Or.inl (by decide)) (by decide) rfl rfl⟩

/-- Shared helper: the known-but-unimplemented arm of the dispatch. -/
theorem Handler.handle_unimplemented (evaluator : EvaluatorFunc) (fs : FileSystem)
    (req : Message) (hmem : req.op ∈ Handler.unimplementedOps) :
    Handler.Handle evaluator fs req =
      { id := req.id, status := ["error"],
        protocolError := "operation " ++ goQuote req.op ++ " not yet implemented" } := by
  simp only [Handler.unimplementedOps, List.mem_cons, List.mem_singleton,
    List.not_mem_nil, or_false] at hmem
  rcases hmem with h | h | h | h | h | h | h | h <;>
    simp [Handler.Handle, Handler.unimplementedOps, h]

/-- Shared helper: the default arm of the dispatch. -/
theorem Handler.handle_unknown (evaluator : EvaluatorFunc) (fs : FileSystem)
    (req : Message)
    (h : req.op ∉ ["eval", "load-file", "describe", "interrupt"] ++ Handler.unimplementedOps) :
    Handler.Handle evaluator fs req =
      { id := req.id, status := ["error"],
        protocolError := "unknown operation: " ++ goQuote req.op } := by
  simp only [Handler.unimplementedOps, List.cons_append, List.nil_append,
    List.mem_cons, List.not_mem_nil, or_false, not_or] at h
  obtain ⟨h1, h2, h3, h4, h5, h6, h7, h8, h9, h10, h11, h12⟩ := h
  simp [Handler.Handle, Handler.unimplementedOps, h1, h2, h3, h4, h5, h6, h7,
    h8, h9, h10, h11, h12]

/-- C8: a request whose op is outside the four implemented ones gets status
`[error]`; an op of the known-but-unimplemented set gets protocol error
`operation "X" not yet implemented`; any other op gets protocol error
`unknown operation: "X"`, which contains `unknown operation` followed by the
quoted op name. -/
theorem non_core_ops_rejected (evaluator : EvaluatorFunc) (fs : FileSystem)
    (req : Message)
    (hop : req.op ∉ ["eval", "load-file", "describe", "interrupt"]) :
    (Handler.Handle evaluator fs req).status = ["error"]
    ∧ (req.op ∈ Handler.unimplementedOps →
        (Handler.Handle evaluator fs req).protocolError =
          "operation " ++ goQuote req.op ++ " not yet implemented")
    ∧ (req.op ∉ Handler.unimplementedOps →
        (Handler.Handle evaluator fs req).protocolError =
          "unknown operation: " ++ goQuote req.op
        ∧ ∃ rest, (Handler.Handle evaluator fs req).protocolError =
            "unknown operation" ++ rest) := by
  by_cases hmem : req.op ∈ Handler.unimplementedOps
  · rw [Handler.handle_unimplemented evaluator fs req hmem]
    exact ⟨rfl, fun _ => rfl, fun hn => absurd hmem hn⟩
  · have hn : req.op ∉ ["eval", "load-file", "describe", "interrupt"]
        ++ Handler.unimplementedOps := by
      intro hin
      rcases List.mem_append.mp hin with hin | hin
      · exact hop hin
      · exact hmem hin
    rw [Handler.handle_unknown evaluator fs req hn]
    refine ⟨rfl, fun hm => absurd hm hmem, fun _ => ⟨rfl, ": " ++ goQuote req.op, ?_⟩⟩
    rw [show ("unknown operation: " : String) = "unknown operation" ++ ": " from rfl,
      String.append_assoc]

/-- Witness for C8: one known-but-unimplemented op and one unknown op. -/
theorem non_core_ops_rejected_witness :
    ((Handler.Handle mockEvaluator emptyFs { op := "complete", id := "5" }).protocolError =
        "operation " ++ goQuote "complete" ++ " not yet implemented")
    ∧ ((Handler.Handle mockEvaluator emptyFs { op := "frobnicate", id := "6" }).status = ["error"]
      ∧ (Handler.Handle mockEvaluator emptyFs { op := "frobnicate", id := "6" }).protocolError =
          "unknown operation: " ++ goQuote "frobnicate") :=
  ⟨(non_core_ops_rejected mockEvaluator emptyFs { op := "complete", id := "5" }
      (by decide)).2.1 (by decide),
   ⟨(non_core_ops_rejected mockEvaluator emptyFs { op := "frobnicate", id := "6" }
      (by decide)).1,
    ((non_core_ops_rejected mockEvaluator emptyFs { op := "frobnicate", id := "6" }
      (by decide)).2.2 (by decide)).1⟩⟩

/-- The response of the spec concrete scenario: a successful eval of
`(+ 1 2)` under id `1`, as `Handler.Handle` shapes it. -/
def evalResponseExample : Message := { id := "1", value := .num 3, status := ["done"] }

/-! ## Theorems: the textual codec -/

/-- The encoded record always carries the `op` key (no `omitempty` tag). -/
theorem encode_lookup_op (m : Message) :
    (Message.encodeObj m).lookup "op" = some (.str m.op) := by
  simp only [Message.encodeObj]
  split_ifs <;> simp [List.lookup]

/-- The encoded record always carries the `id` key (no `omitempty` tag). -/
theorem encode_lookup_id (m : Message) :
    (Message.encodeObj m).lookup "id" = some (.str m.id) := by
  simp only [Message.encodeObj]
  split_ifs <;> simp [List.lookup]

/-- The `session` key of the encoded record: present exactly when non-zero. -/
theorem encode_lookup_session (m : Message) :
    (Message.encodeObj m).lookup "session" =
      if m.session = "" then none else some (.str m.session) := by
  simp only [Message.encodeObj]
  split_ifs <;> simp_all [List.lookup]

/-- The `code` key of the encoded record: present exactly when non-zero. -/
theorem encode_lookup_code (m : Message) :
    (Message.encodeObj m).lookup "code" =
      if m.code = "" then none else some (.str m.code) := by
  simp only [Message.encodeObj]
  split_ifs <;> simp_all [List.lookup]

/-- The `status` key of the encoded record: present exactly when non-zero. -/
theorem encode_lookup_status (m : Message) :
    (Message.encodeObj m).lookup "status" =
      if m.status = [] then none else some (.arr (m.status.map .str)) := by
  simp only [Message.encodeObj]
  split_ifs <;> simp_all [List.lookup]

/-- The `value` key of the encoded record: present exactly when non-zero. -/
theorem encode_lookup_value (m : Message) :
    (Message.encodeObj m).lookup "value" =
      if m.value = .null then none else some (canonJson m.value) := by
  simp only [Message.encodeObj]
  split_ifs <;> simp_all [List.lookup]

/-- The `output` key of the encoded record: present exactly when non-zero. -/
theorem encode_lookup_output (m : Message) :
    (Message.encodeObj m).lookup "output" =
      if m.output = "" then none else some (.str m.output) := by
  simp only [Message.encodeObj]
  split_ifs <;> simp_all [List.lookup]

/-- The `protocol_error` key of the encoded record: present exactly when
non-zero. -/
theorem encode_lookup_protocolError (m : Message) :
    (Message.encodeObj m).lookup "protocol_error" =
      if m.protocolError = "" then none else some (.str m.protocolError) := by
  simp only [Message.encodeObj]
  split_ifs <;> simp_all [List.lookup]

/-- The `data` key of the encoded record: present exactly when non-zero. -/
theorem encode_lookup_data (m : Message) :
    (Message.encodeObj m).lookup "data" =
      if m.data = [] then none
      else some (.obj (sortByKey (canonJsonPairs m.data))) := by
  simp only [Message.encodeObj]
  split_ifs <;> simp_all [List.lookup]

/-- Unmarshalling the status array produced by marshalling recovers the
original string list. -/
theorem decodeStatusList_map_str (l : List String) :
    decodeStatusList (l.map .str) = .ok l := by
  induction l with
  | nil => rfl
  | cons x xs ih => simp [decodeStatusList, decodeStatusElem, ih]

/-- Shared helper: decoding an encoded message succeeds and recovers every
field, with `value` and `data` in their marshalled (map-keys-sorted) form. -/
theorem decode_encode (m : Message) :
    Message.decodeObj (Message.encodeObj m) =
      .ok { m with value := canonJson m.value,
                   data := sortByKey (canonJsonPairs m.data) } := by
  simp only [Message.decodeObj, decodeStringField, decodeStatusField,
    decodeValueField, decodeDataField, encode_lookup_op, encode_lookup_id,
    encode_lookup_session, encode_lookup_code, encode_lookup_status,
    encode_lookup_value, encode_lookup_output, encode_lookup_protocolError,
    encode_lookup_data]
  split_ifs <;>
    simp_all [decodeStatusList_map_str, canonJson, canonJsonPairs, sortByKey]

/-- C4: encoding a message with the textual codec and decoding the produced
record yields a message whose op, id, code, output, protocol_error and
status equal the original's. (In this model JSON numbers are exact, so the
claim's numeric-widening caveat is subsumed by equality.) -/
theorem encode_decode_round_trip (m : Message) :
    ∃ m2 : Message, Message.decodeObj (Message.encodeObj m) = .ok m2
      ∧ m2.op = m.op ∧ m2.id = m.id ∧ m2.code = m.code
      ∧ m2.output = m.output ∧ m2.protocolError = m.protocolError
      ∧ m2.status = m.status :=
  ⟨_, decode_encode m, rfl, rfl, rfl, rfl, rfl, rfl⟩

/-- C5 counterexample: the encoded successful-eval response carries an
`op` key with the empty string (the `op` struct tag has no `omitempty`), so
the encoding is not the claimed three-key record. -/
theorem encode_op_key_always_present :
    (Message.encodeObj evalResponseExample).lookup "op" = some (.str "")
    ∧ Message.encodeObj evalResponseExample ≠
        [("id", .str "1"), ("value", .num 3), ("status", .arr [.str "done"])] := by
  decide

/-- C5 amended: the optional fields (session, code, status, value, output,
protocol_error, data) are omitted at their zero values, but `op` and `id`
are always emitted; the successful-eval response for `(+ 1 2)` under id `1`
encodes as the record with keys op (empty), id, status, value. -/
theorem encode_omits_zero_optional_fields (m : Message) :
    ((m.session = "" → (Message.encodeObj m).lookup "session" = none)
      ∧ (m.code = "" → (Message.encodeObj m).lookup "code" = none)
      ∧ (m.status = [] → (Message.encodeObj m).lookup "status" = none)
      ∧ (m.value = .null → (Message.encodeObj m).lookup "value" = none)
      ∧ (m.output = "" → (Message.encodeObj m).lookup "output" = none)
      ∧ (m.protocolError = "" → (Message.encodeObj m).lookup "protocol_error" = none)
      ∧ (m.data = [] → (Message.encodeObj m).lookup "data" = none))
    ∧ (Message.encodeObj m).lookup "op" = some (.str m.op)
    ∧ (Message.encodeObj m).lookup "id" = some (.str m.id)
    ∧ Message.encodeObj evalResponseExample =
        [("op", .str ""), ("id", .str "1"), ("status", .arr [.str "done"]),
         ("value", .num 3)] := by
  refine ⟨⟨fun h => ?_, fun h => ?_, fun h => ?_, fun h => ?_, fun h => ?_,
    fun h => ?_, fun h => ?_⟩, encode_lookup_op m, encode_lookup_id m, by decide⟩
  · rw [encode_lookup_session m, if_pos h]
  · rw [encode_lookup_code m, if_pos h]
  · rw [encode_lookup_status m, if_pos h]
  · rw [encode_lookup_value m, if_pos h]
  · rw [encode_lookup_output m, if_pos h]
  · rw [encode_lookup_protocolError m, if_pos h]
  · rw [encode_lookup_data m, if_pos h]

/-- Witness for the amended C5 at the all-zero message: every optional key
is absent. -/
theorem encode_omits_zero_optional_fields_witness :
    (Message.encodeObj {}).lookup "session" = none
    ∧ (Message.encodeObj {}).lookup "code" = none
    ∧ (Message.encodeObj {}).lookup "status" = none
    ∧ (Message.encodeObj {}).lookup "value" = none
    ∧ (Message.encodeObj {}).lookup "output" = none
    ∧ (Message.encodeObj {}).lookup "protocol_error" = none
    ∧ (Message.encodeObj {}).lookup "data" = none :=
  ⟨(encode_omits_zero_optional_fields {}).1.1 rfl,
   (encode_omits_zero_optional_fields {}).1.2.1 rfl,
   (encode_omits_zero_optional_fields {}).1.2.2.1 rfl,
   (encode_omits_zero_optional_fields {}).1.2.2.2.1 rfl,
   (encode_omits_zero_optional_fields {}).1.2.2.2.2.1 rfl,
   (encode_omits_zero_optional_fields {}).1.2.2.2.2.2.1 rfl,
   (encode_omits_zero_optional_fields {}).1.2.2.2.2.2.2 rfl⟩

/-! ## Theorems: universal client, factory, in-process transport -/

/-- C6 (divergence witness): at a `unix://` address the universal client
detects the `unix` transport but hands the underlying unix client the
address with the `unix://` prefix still attached — the `tcp` arm strips its
prefix, the `unix` arm does not. -/
theorem connect_unix_prefix_not_stripped :
    (detectTransport "unix:///tmp/zylisp.sock").1 = "unix"
    ∧ (UniversalClient.Connect {} (fun _ _ => none) "unix:///tmp/zylisp.sock").dialedAddr
        = some "unix:///tmp/zylisp.sock"
    ∧ (some "unix:///tmp/zylisp.sock" : Option String) ≠ some "/tmp/zylisp.sock"
    ∧ (UniversalClient.Connect {} (fun _ _ => none) "tcp://localhost:5555").dialedAddr
        = some "localhost:5555" := by
  decide

/-- C7 counterexample: the factory accepts an in-process configuration with
no evaluator — construction succeeds instead of failing. -/
theorem newServer_accepts_missing_evaluator :
    exceptIsOk (NewServer { transport := "in-process", evaluator := none }) = true := by
  rfl

/-- C7 amended: transport `in-process` or empty ignores address and codec
and always succeeds (the evaluator is not validated); `unix`/`tcp` fail on
an empty address and otherwise receive the address and the codec, an empty
codec name defaulting to `json`; any other tag fails with
`unknown transport: X`. -/
theorem newServer_validation (config : ServerConfig) :
    ((config.transport = "in-process" ∨ config.transport = "") →
        NewServer config = .ok (.inprocess config.evaluator))
    ∧ (config.transport = "unix" →
        (config.addr = "" → NewServer config = .error "unix transport requires Addr")
        ∧ (config.addr ≠ "" → NewServer config =
            .ok (.unix config.addr
              (if config.codec = "" then "json" else config.codec) config.evaluator)))
    ∧ (config.transport = "tcp" →
        (config.addr = "" → NewServer config = .error "tcp transport requires Addr")
        ∧ (config.addr ≠ "" → NewServer config =
            .ok (.tcp config.addr
              (if config.codec = "" then "json" else config.codec) config.evaluator)))
    ∧ (config.transport ∉ ["in-process", "", "unix", "tcp"] →
        NewServer config = .error ("unknown transport: " ++ config.transport)) := by
  refine ⟨fun h => ?_, fun h => ⟨fun ha => ?_, fun ha => ?_⟩,
    fun h => ⟨fun ha => ?_, fun ha => ?_⟩, fun h => ?_⟩
  · rcases h with h | h <;> simp [NewServer, h]
  · simp [NewServer, h, ha]
  · simp [NewServer, h, ha]
  · simp [NewServer, h, ha]
  · simp [NewServer, h, ha]
  · simp only [List.mem_cons, List.not_mem_nil, or_false, not_or] at h
    obtain ⟨h1, h2, h3, h4⟩ := h
    simp [NewServer, h1, h2, h3, h4]

/-- Witness for the amended C7 at four concrete configurations. -/
theorem newServer_validation_witness :
    NewServer { transport := "in-process", evaluator := none } = .ok (.inprocess none)
    ∧ NewServer { transport := "unix", addr := "", evaluator := none } =
        .error "unix transport requires Addr"
    ∧ NewServer { transport := "unix", addr := "/tmp/zylisp.sock", evaluator := none } =
        .ok (.unix "/tmp/zylisp.sock" "json" none)
    ∧ NewServer { transport := "quic", evaluator := none } =
        .error "unknown transport: quic" :=
  ⟨(newServer_validation { transport := "in-process", evaluator := none }).1
      (Or.inl rfl),
   ((newServer_validation { transport := "unix", addr := "", evaluator := none }).2.1
      rfl).1 rfl,
   ((newServer_validation
      { transport := "unix", addr := "/tmp/zylisp.sock", evaluator := none }).2.1
      rfl).2 (by decide),
   (newServer_validation { transport := "quic", evaluator := none }).2.2.2
      (by decide)⟩

/-- C10: when the address detects as `unix` or `tcp` and the dial fails,
`Connect` returns the error but has already recorded the transport tag, and
the stored client is still nil; a subsequent `Eval` therefore does not take
the `not connected` path but hits the failing type assertion. -/
theorem connect_failure_then_eval_asserts (addr : String) (dial : DialFun)
    (hdet : (detectTransport addr).1 = "unix" ∨ (detectTransport addr).1 = "tcp")
    (hdial : ∀ t a, (dial t a).isSome = true) :
    ((UniversalClient.Connect {} dial addr).err).isSome = true
    ∧ (UniversalClient.Connect {} dial addr).client.transport = (detectTransport addr).1
    ∧ (UniversalClient.Connect {} dial addr).client.impl = none
    ∧ ∀ inner, UniversalClient.Eval (UniversalClient.Connect {} dial addr).client inner
        = .typeAssertionFailure := by
  rcases hdet with h | h
  · obtain ⟨e, he⟩ := Option.isSome_iff_exists.mp (hdial "unix" addr)
    simp [UniversalClient.Connect, UniversalClient.Eval, h, he]
  · obtain ⟨e, he⟩ := Option.isSome_iff_exists.mp
      (hdial "tcp" (if 6 < addr.length ∧ addr.take 6 = "tcp://" then addr.drop 6 else addr))
    simp [UniversalClient.Connect, UniversalClient.Eval, h, he]

/-- Witness for C10: a failing dial at a `unix://` address. -/
theorem connect_failure_then_eval_asserts_witness :
    ((UniversalClient.Connect {} (fun _ _ => some "connection refused")
        "unix:///tmp/zylisp.sock").err).isSome = true
    ∧ (UniversalClient.Connect {} (fun _ _ => some "connection refused")
        "unix:///tmp/zylisp.sock").client.transport = "unix"
    ∧ (UniversalClient.Connect {} (fun _ _ => some "connection refused")
        "unix:///tmp/zylisp.sock").client.impl = none
    ∧ UniversalClient.Eval
        (UniversalClient.Connect {} (fun _ _ => some "connection refused")
          "unix:///tmp/zylisp.sock").client (.error "unused")
        = .typeAssertionFailure := by
  obtain ⟨ha, hb, hc, hd⟩ := connect_failure_then_eval_asserts
    "unix:///tmp/zylisp.sock" (fun _ _ => some "connection refused")
    (Or.inl (by decide)) (fun _ _ => rfl)
  exact ⟨ha, by rw [hb]; decide, hc, hd (.error "unused")⟩

/-- C9: an in-process `Eval` abandoned at context cancellation leaves its
response buffered in the client's FIFO response channel; the next `Eval`
on the same client receives that stale response, whose id is the first
request's `1`, not the new request's `2`. -/
theorem inprocess_abandoned_response_is_returned_next (evaluator : EvaluatorFunc)
    (fs : FileSystem) (code1 code2 : String) :
    ∃ r s5,
      inprocessRecv
        (inprocessProcessOne evaluator fs "client-1"
          (inprocessSendEval "client-1" code2
            (inprocessProcessOne evaluator fs "client-1"
              (inprocessSendEval "client-1" code1 {})))) = some (r, s5)
      ∧ r.id = "1"
      ∧ (inprocessEvalRequest "client-1" 2 code2).id = "2"
      ∧ r.id ≠ "2" := by
  have hid : (messageToResult
      (Handler.Handle evaluator fs (inprocessEvalRequest "client-1" 1 code1))).id = "1" := by
    show (Handler.Handle evaluator fs (inprocessEvalRequest "client-1" 1 code1)).id = "1"
    rw [Handler.handle_id]
    rfl
  refine ⟨messageToResult
      (Handler.Handle evaluator fs (inprocessEvalRequest "client-1" 1 code1)),
    { requests := [],
      clientResponses := [Handler.Handle evaluator fs (inprocessEvalRequest "client-1" 2 code2)],
      msgID := 2 }, ?_, hid, rfl, by rw [hid]; decide⟩
  simp [inprocessSendEval, inprocessProcessOne, inprocessRecv, inprocessEvalRequest]
